import Mathlib

/-!
Verification of the cogniplay training-orchestration core.

This file gives a shallow embedding, in Lean 4, of the parts of the
`cogniplay` Python code base that the specification's testable properties
talk about, and proves (or refutes) those properties over the embedding.

Conventions used throughout:
* Python `float` values that carry scores/accuracies are modelled as `ℚ`
  (all constants involved — 90, 50, 0.5, 0.7, 70.0 — are compared exactly;
  the embedding uses exact rational arithmetic).
* Python `str` values are modelled as Lean `String`; the Python methods
  `.strip()`, `.lower()`, `.split(',')` and the `in` substring test are
  modelled by executable functions over `List Char` defined below.
* Calls into the external generation/evaluation service are modelled by an
  explicit `Except Unit α` argument: `.ok a` is a reply that parsed to `a`,
  `.error ()` is any raised exception (timeout, network failure, or a
  structurally malformed reply whose field access raised).
* Python dicts used as id-keyed registries are modelled as functions
  `String → Option α`.
-/

/-! ## Python string primitives

Executable models of the Python string operations used by the validators:
`str.strip`, `str.lower`, `str.split(',')`, `c in s` (char membership) and
`sub in s` (substring membership). -/

/-- Python `str.strip()`: drop whitespace from both ends. -/
def pyStrip (l : List Char) : List Char :=
  ((l.dropWhile Char.isWhitespace).reverse.dropWhile Char.isWhitespace).reverse

/-- Python `str.lower()` (ASCII case folding, the only case the repo uses). -/
def pyLower (l : List Char) : List Char :=
  l.map Char.toLower

/-- Python `s.strip().lower()` applied to a Lean `String`. -/
def pyNormalize (s : String) : List Char :=
  pyLower (pyStrip s.data)

/-- Python `s.split(',')`.  Like Python, `"".split(',') = [""]` and empty
segments between adjacent commas are kept. -/
def pySplitComma (l : List Char) : List (List Char) :=
  l.foldr
    (fun c acc =>
      if c = ',' then [] :: acc
      else
        match acc with
        | [] => [[c]]
        | h :: t => (c :: h) :: t)
    [[]]

/-- `beginsWith needle hay`: `hay` starts with `needle`. -/
def beginsWith : List Char → List Char → Bool
  | [], _ => true
  | _ :: _, [] => false
  | a :: as, b :: bs => a == b && beginsWith as bs

/-- Python `needle in hay` for strings: substring membership. -/
def hasSub (needle : List Char) : List Char → Bool
  | [] => needle.isEmpty
  | c :: rest => beginsWith needle (c :: rest) || hasSub needle rest

/-- Python `set(a) == set(b)` for lists of tokens. -/
def sameSet (a b : List (List Char)) : Bool :=
  a.all (fun x => b.contains x) && b.all (fun x => a.contains x)

/-! ## Difficulty engine
Embedding of `src/cogniplay/core/difficulty_engine.py`
(`DifficultyAdjustmentEngine`).  The repository dict
`{'consecutive_successes', 'consecutive_failures', 'last_exercise_result',
'last_updated'}` becomes the structure `Tracking` (the timestamp is
dropped: no claim mentions it).  The user row's
`current_difficulty_level` together with the tracking row forms
`EngineState`.  The human-readable `reason`/`message` strings of an
adjustment are dropped; its numeric content is kept. -/

/-- Result classification produced in `process_result`. -/
inductive ResultType
  | success
  | failure
  | neutral
  deriving DecidableEq, Repr

/-- Adjustment direction. -/
inductive AdjDirection
  | up
  | down
  deriving DecidableEq, Repr

/-- The per-user difficulty tracking row. -/
structure Tracking where
  consecutive_successes : Nat
  consecutive_failures : Nat
  last_exercise_result : ResultType
  deriving DecidableEq, Repr

/-- The adjustment record returned by `_check_adjustment` (minus the
message strings). -/
structure Adjustment where
  old_level : Nat
  new_level : Nat
  direction : AdjDirection
  deriving DecidableEq, Repr

/-- User difficulty level plus tracking row: the whole state
`process_result` reads and writes. -/
structure EngineState where
  level : Nat
  tracking : Tracking
  deriving DecidableEq, Repr

/-- `DifficultyAdjustmentEngine.MIN_LEVEL`. -/
def MIN_LEVEL : Nat := 1

/-- `DifficultyAdjustmentEngine.MAX_LEVEL`. -/
def MAX_LEVEL : Nat := 5

/-- `DifficultyAdjustmentEngine.SUCCESS_THRESHOLD` (percent). -/
def SUCCESS_THRESHOLD : ℚ := 90

/-- `DifficultyAdjustmentEngine.FAILURE_THRESHOLD` (percent). -/
def FAILURE_THRESHOLD : ℚ := 50

/-- `DifficultyAdjustmentEngine.CONSECUTIVE_REQUIRED`. -/
def CONSECUTIVE_REQUIRED : Nat := 3

/-- The result-type classification inside `process_result` (lines 59-65). -/
def classifyResult (accuracy : ℚ) : ResultType :=
  if SUCCESS_THRESHOLD ≤ accuracy then .success
  else if accuracy < FAILURE_THRESHOLD then .failure
  else .neutral

/-- `DifficultyAdjustmentEngine._update_tracking`. -/
def updateTracking (tracking : Tracking) (result_type : ResultType) : Tracking :=
  match result_type with
  | .success =>
      { tracking with
        consecutive_successes := tracking.consecutive_successes + 1
        consecutive_failures := 0
        last_exercise_result := .success }
  | .failure =>
      { tracking with
        consecutive_failures := tracking.consecutive_failures + 1
        consecutive_successes := 0
        last_exercise_result := .failure }
  | .neutral =>
      { tracking with last_exercise_result := .neutral }

/-- `DifficultyAdjustmentEngine._check_adjustment`: returns the optional
adjustment, the (possibly updated) user level, and the (possibly
counter-reset) tracking row. -/
def checkAdjustment (current_level : Nat) (tracking : Tracking) :
    Option Adjustment × Nat × Tracking :=
  if CONSECUTIVE_REQUIRED ≤ tracking.consecutive_successes then
    if current_level < MAX_LEVEL then
      (some ⟨current_level, current_level + 1, .up⟩,
       current_level + 1,
       { tracking with consecutive_successes := 0, consecutive_failures := 0 })
    else
      (none, current_level, tracking)
  else if CONSECUTIVE_REQUIRED ≤ tracking.consecutive_failures then
    if MIN_LEVEL < current_level then
      (some ⟨current_level, current_level - 1, .down⟩,
       current_level - 1,
       { tracking with consecutive_successes := 0, consecutive_failures := 0 })
    else
      (none, current_level, tracking)
  else
    (none, current_level, tracking)

/-- `DifficultyAdjustmentEngine.process_result`: classify, update the
streak counters, then check for an adjustment. -/
def processResult (s : EngineState) (accuracy : ℚ) : EngineState × Option Adjustment :=
  let result_type := classifyResult accuracy
  let updated_tracking := updateTracking s.tracking result_type
  let r := checkAdjustment s.level updated_tracking
  (⟨r.2.1, r.2.2⟩, r.1)

/-- Feed a whole accuracy sequence through `process_result`. -/
def runResults (s : EngineState) (accs : List ℚ) : EngineState :=
  accs.foldl (fun st a => (processResult st a).1) s

/-- States reachable by the engine from a fresh tracking row: level within
bounds, and below the threshold streaks never survive a check (at level 5
the success streak may grow without bound, and at level 1 the failure
streak may — elsewhere a streak of 3 is immediately consumed). -/
def EngineInv (s : EngineState) : Prop :=
  MIN_LEVEL ≤ s.level ∧ s.level ≤ MAX_LEVEL ∧
    (s.level < MAX_LEVEL → s.tracking.consecutive_successes ≤ 2) ∧
    (MIN_LEVEL < s.level → s.tracking.consecutive_failures ≤ 2)

lemma classify_success_iff (a : ℚ) : classifyResult a = .success ↔ 90 ≤ a := by
  unfold classifyResult SUCCESS_THRESHOLD FAILURE_THRESHOLD
  split_ifs with h1 h2 <;> simp_all

lemma classify_failure_iff (a : ℚ) : classifyResult a = .failure ↔ a < 50 := by
  unfold classifyResult SUCCESS_THRESHOLD FAILURE_THRESHOLD
  split_ifs with h1 h2 <;> simp_all <;> linarith

lemma classify_neutral_iff (a : ℚ) : classifyResult a = .neutral ↔ 50 ≤ a ∧ a < 90 := by
  unfold classifyResult SUCCESS_THRESHOLD FAILURE_THRESHOLD
  split_ifs with h1 h2 <;> simp_all <;>
    first
    | linarith
    | exact fun hle => lt_of_not_le h2

lemma processResult_level_bounds (s : EngineState) (a : ℚ)
    (h1 : 1 ≤ s.level) (h5 : s.level ≤ 5) :
    1 ≤ (processResult s a).1.level ∧ (processResult s a).1.level ≤ 5 := by
  rcases s with ⟨lvl, cs, cf, last⟩
  cases h : classifyResult a <;>
    simp only [processResult, h, updateTracking, checkAdjustment,
      CONSECUTIVE_REQUIRED, MIN_LEVEL, MAX_LEVEL] <;>
    split_ifs <;> simp_all <;> omega

lemma engineInv_step (s : EngineState) (a : ℚ) (hInv : EngineInv s) :
    EngineInv (processResult s a).1 := by
  rcases s with ⟨lvl, cs, cf, last⟩
  obtain ⟨hmin, hmax, hcs, hcf⟩ := hInv
  simp only [MIN_LEVEL, MAX_LEVEL] at hmin hmax hcs hcf
  cases h : classifyResult a <;>
    simp only [processResult, h, updateTracking, checkAdjustment, EngineInv,
      CONSECUTIVE_REQUIRED, MIN_LEVEL, MAX_LEVEL] <;>
    split_ifs <;> simp_all <;> omega

lemma engineInv_run (s : EngineState) (accs : List ℚ) (hInv : EngineInv s) :
    EngineInv (runResults s accs) := by
  induction accs generalizing s with
  | nil => exact hInv
  | cons a rest ih => exact ih _ (engineInv_step s a hInv)

lemma processResult_success_step (s : EngineState) (a : ℚ) (ha : 90 ≤ a)
    (hlt : s.tracking.consecutive_successes + 1 < 3) :
    processResult s a =
      (⟨s.level, ⟨s.tracking.consecutive_successes + 1, 0, .success⟩⟩, none) := by
  have h := (classify_success_iff a).mpr ha
  rcases s with ⟨lvl, cs, cf, last⟩
  simp only [processResult, h, updateTracking, checkAdjustment,
    CONSECUTIVE_REQUIRED, MIN_LEVEL, MAX_LEVEL]
  split_ifs <;> simp_all <;> omega

lemma processResult_success_levelup (s : EngineState) (a : ℚ) (ha : 90 ≤ a)
    (hge : 3 ≤ s.tracking.consecutive_successes + 1) (hlvl : s.level < 5) :
    processResult s a =
      (⟨s.level + 1, ⟨0, 0, .success⟩⟩, some ⟨s.level, s.level + 1, .up⟩) := by
  have h := (classify_success_iff a).mpr ha
  rcases s with ⟨lvl, cs, cf, last⟩
  simp only [processResult, h, updateTracking, checkAdjustment,
    CONSECUTIVE_REQUIRED, MIN_LEVEL, MAX_LEVEL]
  split_ifs <;> simp_all

/-- **C1.** `process_result` classifies accuracy ≥ 90 as success, accuracy
< 50 as failure, anything else as neutral; `_update_tracking` increments
the success streak and zeroes the failure streak on a success, does the
inverse on a failure, and leaves both counters exactly unchanged on a
neutral result; consequently the sequence `[95, 70, 95, 95]` run from a
fresh tracking row at any level `L < 5` counts 3 successes (the neutral 70
neither resets nor advances the streak) and produces the level-up exactly
when the third ≥ 90 result is processed. -/
theorem spec_C1 :
    (∀ a : ℚ,
        (90 ≤ a → classifyResult a = .success) ∧
        (a < 50 → classifyResult a = .failure) ∧
        (50 ≤ a → a < 90 → classifyResult a = .neutral))
    ∧ (∀ t : Tracking,
        (updateTracking t .success).consecutive_successes = t.consecutive_successes + 1 ∧
        (updateTracking t .success).consecutive_failures = 0 ∧
        (updateTracking t .failure).consecutive_failures = t.consecutive_failures + 1 ∧
        (updateTracking t .failure).consecutive_successes = 0 ∧
        (updateTracking t .neutral).consecutive_successes = t.consecutive_successes ∧
        (updateTracking t .neutral).consecutive_failures = t.consecutive_failures)
    ∧ (∀ (L : Nat) (last : ResultType), L < 5 →
        runResults ⟨L, ⟨0, 0, last⟩⟩ [95] = ⟨L, ⟨1, 0, .success⟩⟩ ∧
        runResults ⟨L, ⟨0, 0, last⟩⟩ [95, 70] = ⟨L, ⟨1, 0, .neutral⟩⟩ ∧
        runResults ⟨L, ⟨0, 0, last⟩⟩ [95, 70, 95] = ⟨L, ⟨2, 0, .success⟩⟩ ∧
        processResult ⟨L, ⟨2, 0, .success⟩⟩ 95 =
          (⟨L + 1, ⟨0, 0, .success⟩⟩, some ⟨L, L + 1, .up⟩) ∧
        (runResults ⟨L, ⟨0, 0, last⟩⟩ [95, 70, 95, 95]).level = L + 1) := by
  refine ⟨?_, ?_, ?_⟩
  · intro a
    exact ⟨fun h => (classify_success_iff a).mpr h,
           fun h => (classify_failure_iff a).mpr h,
           fun h1 h2 => (classify_neutral_iff a).mpr ⟨h1, h2⟩⟩
  · intro t
    simp [updateTracking]
  · intro L last hL
    have h95 : (90 : ℚ) ≤ 95 := by norm_num
    have hneutral : classifyResult 70 = .neutral := by
      rw [classify_neutral_iff]; norm_num
    have s1 : processResult ⟨L, ⟨0, 0, last⟩⟩ 95 = (⟨L, ⟨1, 0, .success⟩⟩, none) :=
      processResult_success_step _ _ h95 (by simp)
    have s2 : processResult ⟨L, ⟨1, 0, .success⟩⟩ 70 = (⟨L, ⟨1, 0, .neutral⟩⟩, none) := by
      simp [processResult, hneutral, updateTracking, checkAdjustment, CONSECUTIVE_REQUIRED]
    have s3 : processResult ⟨L, ⟨1, 0, .neutral⟩⟩ 95 = (⟨L, ⟨2, 0, .success⟩⟩, none) :=
      processResult_success_step _ _ h95 (by simp)
    have s4 : processResult ⟨L, ⟨2, 0, .success⟩⟩ 95 =
        (⟨L + 1, ⟨0, 0, .success⟩⟩, some ⟨L, L + 1, .up⟩) :=
      processResult_success_levelup _ _ h95 (by simp) hL
    refine ⟨?_, ?_, ?_, s4, ?_⟩
    · simp [runResults, s1]
    · simp [runResults, s1, s2]
    · simp [runResults, s1, s2, s3]
    · simp [runResults, s1, s2, s3, s4]

/-- Witness for C1 at the concrete level `L = 1`. -/
theorem spec_C1_witness :
    runResults ⟨1, ⟨0, 0, .neutral⟩⟩ [95, 70, 95] = ⟨1, ⟨2, 0, .success⟩⟩ ∧
    processResult ⟨1, ⟨2, 0, .success⟩⟩ 95 =
      (⟨2, ⟨0, 0, .success⟩⟩, some ⟨1, 2, .up⟩) := by
  have h := spec_C1.2.2 1 .neutral (by decide)
  exact ⟨h.2.2.1, h.2.2.2.1⟩

/-- **C2.** For any accuracy sequence the user level never leaves `[1,5]`;
three consecutive ≥ 90 results processed from a fresh streak at a level
`L < 5` produce no adjustment on the first two and exactly one level-up to
`L + 1` on the third, with both streak counters reset to 0; and (over the
engine's reachable states, `EngineInv`) a level-up is produced *only* by a
≥ 90 result that arrives with a success streak of exactly 2 at a level
below 5 — every run from a fresh tracking row stays inside `EngineInv`. -/
theorem spec_C2 :
    (∀ (s : EngineState) (accs : List ℚ), 1 ≤ s.level → s.level ≤ 5 →
        1 ≤ (runResults s accs).level ∧ (runResults s accs).level ≤ 5)
    ∧ (∀ (L cf : Nat) (last : ResultType) (a₁ a₂ a₃ : ℚ),
        L < 5 → 90 ≤ a₁ → 90 ≤ a₂ → 90 ≤ a₃ →
        processResult ⟨L, ⟨0, cf, last⟩⟩ a₁ = (⟨L, ⟨1, 0, .success⟩⟩, none) ∧
        processResult ⟨L, ⟨1, 0, .success⟩⟩ a₂ = (⟨L, ⟨2, 0, .success⟩⟩, none) ∧
        processResult ⟨L, ⟨2, 0, .success⟩⟩ a₃ =
          (⟨L + 1, ⟨0, 0, .success⟩⟩, some ⟨L, L + 1, .up⟩))
    ∧ (∀ (s s2 : EngineState) (a : ℚ) (adj : Adjustment),
        EngineInv s → processResult s a = (s2, some adj) → adj.direction = .up →
        90 ≤ a ∧ s.tracking.consecutive_successes = 2 ∧ s.level < 5 ∧
        adj.old_level = s.level ∧ adj.new_level = s.level + 1 ∧
        s2.level = s.level + 1 ∧ s2.tracking.consecutive_successes = 0 ∧
        s2.tracking.consecutive_failures = 0)
    ∧ (∀ (L : Nat) (last : ResultType) (accs : List ℚ), 1 ≤ L → L ≤ 5 →
        EngineInv (runResults ⟨L, ⟨0, 0, last⟩⟩ accs)) := by
  refine ⟨?_, ?_, ?_, ?_⟩
  · intro s accs h1 h5
    induction accs generalizing s with
    | nil => exact ⟨h1, h5⟩
    | cons a rest ih =>
        have hb := processResult_level_bounds s a h1 h5
        exact ih _ hb.1 hb.2
  · intro L cf last a₁ a₂ a₃ hL h1 h2 h3
    exact ⟨processResult_success_step _ _ h1 (by simp),
           processResult_success_step _ _ h2 (by simp),
           processResult_success_levelup _ _ h3 (by simp) hL⟩
  · intro s s2 a adj hInv hproc hdir
    rcases s with ⟨lvl, cs, cf, last⟩
    obtain ⟨hmin, hmax, hcs, hcf⟩ := hInv
    simp only [MIN_LEVEL, MAX_LEVEL] at hmin hmax hcs hcf
    cases h : classifyResult a with
    | success =>
        have ha : 90 ≤ a := (classify_success_iff a).mp h
        simp only [processResult, h, updateTracking, checkAdjustment,
          CONSECUTIVE_REQUIRED, MIN_LEVEL, MAX_LEVEL] at hproc
        split_ifs at hproc with hth hlvl hf0 hl1
        · injection hproc with hA hB
          injection hB with hB2
          subst hA
          subst hB2
          have hcs2 := hcs hlvl
          refine ⟨ha, show cs = 2 by omega, hlvl, rfl, rfl, rfl, rfl, rfl⟩
        · injection hproc with hA hB
          exact Option.noConfusion hB
        · omega
        · omega
        · injection hproc with hA hB
          exact Option.noConfusion hB
    | failure =>
        simp only [processResult, h, updateTracking, checkAdjustment,
          CONSECUTIVE_REQUIRED, MIN_LEVEL, MAX_LEVEL] at hproc
        split_ifs at hproc with h30 hlvl hcf3 hl1
        · omega
        · omega
        · injection hproc with hA hB
          injection hB with hB2
          subst hB2
          simp at hdir
        · injection hproc with hA hB
          exact Option.noConfusion hB
        · injection hproc with hA hB
          exact Option.noConfusion hB
    | neutral =>
        simp only [processResult, h, updateTracking, checkAdjustment,
          CONSECUTIVE_REQUIRED, MIN_LEVEL, MAX_LEVEL] at hproc
        split_ifs at hproc with h3cs hlvl h3cf hl1
        · have := hcs hlvl
          omega
        · injection hproc with hA hB
          exact Option.noConfusion hB
        · have := hcf hl1
          omega
        · injection hproc with hA hB
          exact Option.noConfusion hB
        · injection hproc with hA hB
          exact Option.noConfusion hB
  · intro L last accs h1 h5
    refine engineInv_run _ accs ?_
    exact ⟨h1, h5, fun _ => by simp, fun _ => by simp⟩

/-- Witness for C2 at concrete values: level 2, fresh streaks, three 95s. -/
theorem spec_C2_witness :
    (1 ≤ (runResults ⟨2, ⟨0, 0, .neutral⟩⟩ [95, 95, 95, 40]).level ∧
      (runResults ⟨2, ⟨0, 0, .neutral⟩⟩ [95, 95, 95, 40]).level ≤ 5) ∧
    processResult ⟨2, ⟨2, 0, .success⟩⟩ 95 =
      (⟨3, ⟨0, 0, .success⟩⟩, some ⟨2, 3, .up⟩) ∧
    (90 ≤ (95 : ℚ) ∧ (⟨2, ⟨2, 0, .success⟩⟩ : EngineState).tracking.consecutive_successes = 2) := by
  have hb := spec_C2.1 ⟨2, ⟨0, 0, .neutral⟩⟩ [95, 95, 95, 40] (by decide) (by decide)
  have hs := spec_C2.2.1 2 0 ResultType.success 95 95 95 (by decide)
    (by norm_num) (by norm_num) (by norm_num)
  have hchar := spec_C2.2.2.1 ⟨2, ⟨2, 0, .success⟩⟩ ⟨3, ⟨0, 0, .success⟩⟩ 95 ⟨2, 3, .up⟩
    ⟨by decide, by decide, by decide, by decide⟩ hs.2.2 rfl
  exact ⟨hb, hs.2.2, hchar.1, hchar.2.1⟩

/-- **C9.** When a streak has reached the threshold but the level is
already at the corresponding bound (level 5 going up, level 1 going down),
`process_result` returns `none` and does not reset the streak counters:
the same-kind streak keeps growing past the threshold. -/
theorem spec_C9 :
    (∀ (s : EngineState) (a : ℚ),
        s.level = 5 → 90 ≤ a → 2 ≤ s.tracking.consecutive_successes →
        (processResult s a).2 = none ∧
        (processResult s a).1.tracking.consecutive_successes =
          s.tracking.consecutive_successes + 1 ∧
        (processResult s a).1.tracking.consecutive_failures = 0 ∧
        (processResult s a).1.level = 5)
    ∧ (∀ (s : EngineState) (a : ℚ),
        s.level = 1 → a < 50 → 2 ≤ s.tracking.consecutive_failures →
        (processResult s a).2 = none ∧
        (processResult s a).1.tracking.consecutive_failures =
          s.tracking.consecutive_failures + 1 ∧
        (processResult s a).1.tracking.consecutive_successes = 0 ∧
        (processResult s a).1.level = 1) := by
  constructor
  · intro s a hlvl ha hcs
    have h := (classify_success_iff a).mpr ha
    rcases s with ⟨lvl, cs, cf, last⟩
    simp only [EngineState.level] at hlvl
    subst hlvl
    simp only [processResult, h, updateTracking, checkAdjustment,
      CONSECUTIVE_REQUIRED, MIN_LEVEL, MAX_LEVEL]
    split_ifs <;> simp_all <;> omega
  · intro s a hlvl ha hcf
    have h := (classify_failure_iff a).mpr ha
    rcases s with ⟨lvl, cs, cf, last⟩
    simp only [EngineState.level] at hlvl
    subst hlvl
    simp only [processResult, h, updateTracking, checkAdjustment,
      CONSECUTIVE_REQUIRED, MIN_LEVEL, MAX_LEVEL]
    split_ifs <;> simp_all <;> omega

/-- Witness for C9: success streak 4 at level 5, failure streak 2 at level 1. -/
theorem spec_C9_witness :
    ((processResult ⟨5, ⟨4, 0, .success⟩⟩ 95).2 = none ∧
      (processResult ⟨5, ⟨4, 0, .success⟩⟩ 95).1.tracking.consecutive_successes = 5) ∧
    ((processResult ⟨1, ⟨0, 2, .failure⟩⟩ 10).2 = none ∧
      (processResult ⟨1, ⟨0, 2, .failure⟩⟩ 10).1.tracking.consecutive_failures = 3) := by
  have h1 := spec_C9.1 ⟨5, ⟨4, 0, .success⟩⟩ 95 rfl (by norm_num) (by decide)
  have h2 := spec_C9.2 ⟨1, ⟨0, 2, .failure⟩⟩ 10 rfl (by norm_num) (by decide)
  exact ⟨⟨h1.1, h1.2.1⟩, ⟨h2.1, h2.2.1⟩⟩

/-! ## Exercise scorer
Embedding of the scoring logic of `ExerciseEngine.validate_answer`
(`src/cogniplay/engines/exercise_engine.py`, lines 82-100).  The
correctness verdict is an input here (the per-category validators are
modelled separately below).  `completion_time` and `time_limit_seconds`
are Python `int`s, modelled as `Nat` / `Option Nat`; the Python guard
`if exercise.time_limit_seconds and is_correct` is truthy, so both `None`
and `0` skip the time bonus/penalty block. -/

/-- The score computation of `ExerciseEngine.validate_answer`. -/
def validateAnswerScore (is_correct : Bool) (completion_time : Nat)
    (time_limit_seconds : Option Nat) (hints_used : Nat) : ℤ :=
  let base_score : ℤ := if is_correct then 100 else 0
  let base_score : ℤ :=
    match time_limit_seconds with
    | some tl =>
        if tl ≠ 0 ∧ is_correct = true then
          let time_ratio : ℚ := (completion_time : ℚ) / (tl : ℚ)
          if time_ratio < 1/2 then base_score + 10
          else if 1 < time_ratio then base_score - 10
          else base_score
        else base_score
    | none => base_score
  let base_score := base_score - hints_used * 5
  max 0 (min 100 base_score)

/-- The scoring formula exactly as the specification states it
(`score = clamp(0,100, base - 10*isLate + 10*isFast - 5*hintsUsed)`,
`isFast ↔ correct ∧ completionTime < 0.5*timeLimit`,
`isLate ↔ correct ∧ completionTime > timeLimit`), written from the spec's
words for comparison against `validateAnswerScore`. -/
def specScoreC3 (is_correct : Bool) (completion_time time_limit : Nat)
    (hints_used : Nat) : ℤ :=
  let base : ℤ := if is_correct then 100 else 0
  let isFast : Bool := is_correct && decide ((completion_time : ℚ) < 1/2 * (time_limit : ℚ))
  let isLate : Bool := is_correct && decide ((time_limit : ℚ) < (completion_time : ℚ))
  max 0 (min 100 (base - 10 * (if isLate then 1 else 0) + 10 * (if isFast then 1 else 0)
    - 5 * hints_used))

/-- **C3, counterexample.** The claim's formula disagrees with the code at
`timeLimit = 0`: a correct answer with completion time 1, time limit 0 and
no hints scores 100 in the code (the Python truthiness guard
`if exercise.time_limit_seconds and is_correct` skips the time block for a
zero limit), while the claim's `isLate` (correct ∧ 1 > 0) deducts 10 and
yields 90. -/
theorem spec_C3_counterexample :
    validateAnswerScore true 1 (some 0) 0 = 100 ∧ specScoreC3 true 1 0 0 = 90 := by
  refine ⟨by decide, ?_⟩
  norm_num [specScoreC3]

lemma validateAnswerScore_bounds (c : Bool) (ct : Nat) (tlo : Option Nat) (h : Nat) :
    0 ≤ validateAnswerScore c ct tlo h ∧ validateAnswerScore c ct tlo h ≤ 100 := by
  rcases tlo with _ | tl <;> simp only [validateAnswerScore] <;> split_ifs <;> omega

/-- **C3, amended.** For every input with a *positive* time limit the
returned score equals the spec formula
`clamp(0,100, base - 10*isLate + 10*isFast - 5*hintsUsed)`; when the time
limit is absent or zero no time bonus or penalty applies; in all cases the
score lies in `[0,100]` and an incorrect answer with 0 hints scores
exactly 0. -/
theorem spec_C3_amended :
    (∀ (c : Bool) (ct tl h : Nat), 0 < tl →
        validateAnswerScore c ct (some tl) h = specScoreC3 c ct tl h)
    ∧ (∀ (c : Bool) (ct h : Nat) (tlo : Option Nat), tlo = none ∨ tlo = some 0 →
        validateAnswerScore c ct tlo h =
          max 0 (min 100 ((if c then (100 : ℤ) else 0) - (h : ℤ) * 5)))
    ∧ (∀ (c : Bool) (ct h : Nat) (tlo : Option Nat),
        0 ≤ validateAnswerScore c ct tlo h ∧ validateAnswerScore c ct tlo h ≤ 100)
    ∧ (∀ (ct : Nat) (tlo : Option Nat), validateAnswerScore false ct tlo 0 = 0) := by
  refine ⟨?_, ?_, ?_, ?_⟩
  · intro c ct tl h htl
    have htlq : (0 : ℚ) < (tl : ℚ) := by exact_mod_cast htl
    have hfast : ((ct : ℚ) / (tl : ℚ) < 1/2) ↔ ((ct : ℚ) < 1/2 * (tl : ℚ)) :=
      div_lt_iff₀ htlq
    have hlate : (1 < (ct : ℚ) / (tl : ℚ)) ↔ ((tl : ℚ) < (ct : ℚ)) := by
      rw [lt_div_iff₀ htlq, one_mul]
    cases c with
    | false => simp [validateAnswerScore, specScoreC3]
    | true =>
        simp only [validateAnswerScore, specScoreC3, Bool.true_and, decide_eq_true_eq,
          ne_eq, if_true, and_true]
        have htl0 : ¬tl = 0 := by omega
        rw [if_pos htl0]
        by_cases hf : (ct : ℚ) / (tl : ℚ) < 1/2
        · have hf' : (ct : ℚ) < 1/2 * (tl : ℚ) := hfast.mp hf
          have hnl : ¬((tl : ℚ) < (ct : ℚ)) := by
            intro hc
            have := hlate.mpr hc
            linarith
          rw [if_pos hf, if_neg hnl, if_pos hf']
          omega
        · have hnf : ¬((ct : ℚ) < 1/2 * (tl : ℚ)) := fun hc => hf (hfast.mpr hc)
          rw [if_neg hf]
          by_cases hl : 1 < (ct : ℚ) / (tl : ℚ)
          · have hl' : (tl : ℚ) < (ct : ℚ) := hlate.mp hl
            rw [if_pos hl, if_pos hl', if_neg hnf]
            omega
          · have hnl : ¬((tl : ℚ) < (ct : ℚ)) := fun hc => hl (hlate.mpr hc)
            rw [if_neg hl, if_neg hnl, if_neg hnf]
            omega
  · intro c ct h tlo htlo
    rcases htlo with rfl | rfl <;> cases c <;> simp [validateAnswerScore]
  · intro c ct h tlo
    exact validateAnswerScore_bounds c ct tlo h
  · intro ct tlo
    rcases tlo with _ | tl <;> simp [validateAnswerScore]

/-- Witness for the amended C3: a correct, fast answer with one hint at
time limit 10 scores `clamp(0,100, 100 + 10 - 5) = 100`; an incorrect
answer with no hints scores 0. -/
theorem spec_C3_amended_witness :
    validateAnswerScore true 3 (some 10) 1 = specScoreC3 true 3 10 1 ∧
    validateAnswerScore false 3 (some 10) 0 = 0 ∧
    (0 ≤ validateAnswerScore true 3 (some 10) 1 ∧
      validateAnswerScore true 3 (some 10) 1 ≤ 100) := by
  refine ⟨spec_C3_amended.1 true 3 10 1 (by decide), ?_, spec_C3_amended.2.2.1 true 3 1 (some 10)⟩
  exact spec_C3_amended.2.2.2 3 (some 10)

/-! ## Semantic answer validation and its fallback
Embedding of `LogicExerciseGenerator.validate` /
`_validate_llm_logic_answer` (`src/cogniplay/engines/exercise_engine.py`,
lines 617-675).  The service round trip
`_make_request` + `response['choices'][0]['message']['content']` is
modelled by an `Except Unit String` argument: `.ok content` is a reply
whose content field was extracted successfully, `.error ()` is any
exception on the way (timeout, network error, missing key in a malformed
reply, …).  The identical validators of the problem-solving, pattern and
attention generators share this shape. -/

/-- The exact-match fallback
`str(user_answer).strip().lower() == str(correct_answer).strip().lower()`. -/
def fallbackExactMatch (correct_answer user_answer : String) : Bool :=
  pyNormalize user_answer == pyNormalize correct_answer

/-- `LogicExerciseGenerator._validate_llm_logic_answer`: on a successful
reply, answer `'incorrect' not in result_text`; on any exception, fall
back to exact matching. -/
def validateLlmLogicAnswer (svcReply : Except Unit String)
    (correct_answer user_answer : String) : Bool :=
  match svcReply with
  | .ok content =>
      let result_text := pyNormalize content
      !hasSub "incorrect".data result_text
  | .error _ => fallbackExactMatch correct_answer user_answer

/-- `LogicExerciseGenerator.validate`: without a client, exact matching;
with a client, semantic validation via the service. -/
def logicValidate (hasClient : Bool) (svcReply : Except Unit String)
    (correct_answer user_answer : String) : Bool :=
  if !hasClient then fallbackExactMatch correct_answer user_answer
  else validateLlmLogicAnswer svcReply correct_answer user_answer

/-- **C4.** On any service failure (modelled by the `.error` reply, which
covers timeouts, raised exceptions and structurally malformed replies)
the semantic validator falls back to the deterministic trimmed
case-insensitive exact match: `validate(X, X)` is true for every `X`,
`validate(X, Y)` is false whenever `X` and `Y` differ after
trimming/lowercasing, and the error branch computes exactly
`fallbackExactMatch` — a pure function of the two strings, independent of
any prior service state. -/
theorem spec_C4 :
    ∀ (x y : String),
      validateLlmLogicAnswer (.error ()) x x = true ∧
      (pyNormalize x ≠ pyNormalize y →
        validateLlmLogicAnswer (.error ()) x y = false) ∧
      validateLlmLogicAnswer (.error ()) x y = fallbackExactMatch x y := by
  intro x y
  refine ⟨?_, ?_, rfl⟩
  · simp [validateLlmLogicAnswer, fallbackExactMatch]
  · intro hne
    simp only [validateLlmLogicAnswer, fallbackExactMatch]
    exact beq_eq_false_iff_ne.mpr fun hxy => hne hxy.symm

/-- Witness for C4: identical strings accepted, clearly different strings
rejected, under a thrown service call. -/
theorem spec_C4_witness :
    validateLlmLogicAnswer (.error ()) "Keyboard" "Keyboard" = true ∧
    validateLlmLogicAnswer (.error ()) "keyboard" "echo" = false :=
  ⟨(spec_C4 "Keyboard" "echo").1, (spec_C4 "keyboard" "echo").2.1 (by decide)⟩

/-! ## Memory answer validation
Embedding of `MemoryExerciseGenerator.validate`
(`src/cogniplay/engines/exercise_engine.py`, lines 295-314).  The Python
`correct_answer` is either a list of words (word-list exercises) or a
string; `user_answer` is the submitted string.  The float literal `0.7`
is modelled exactly as `7/10 : ℚ`. -/

/-- The two shapes the canonical answer of a memory exercise takes. -/
inductive MemoryAnswer
  | strA (s : String)
  | listA (ws : List String)

/-- `MemoryExerciseGenerator.validate`. -/
def memoryValidate (correct_answer : MemoryAnswer) (user_answer : String) : Bool :=
  match correct_answer with
  | .listA correct_list =>
      let user_words := (pySplitComma user_answer.data).map (fun w => pyLower (pyStrip w))
      let correct_words := correct_list.map (fun w => pyLower w.data)
      let match_count := (user_words.filter (fun w => correct_words.contains w)).length
      decide ((correct_list.length : ℚ) * (7/10) ≤ (match_count : ℚ))
  | .strA ca =>
      if ca.data.contains ',' && user_answer.data.contains ',' then
        let correct_parts := (pySplitComma ca.data).map (fun p => pyLower (pyStrip p))
        let user_parts := (pySplitComma user_answer.data).map (fun p => pyLower (pyStrip p))
        sameSet correct_parts user_parts
      else
        pyNormalize user_answer == pyNormalize ca

/-- The list-branch rule exactly as the claim states it: at least 70% of
the *canonical* tokens are present among the submitted tokens (each side
split on the delimiter, trimmed and lowercased).  Written from the claim's
words for comparison against `memoryValidate`. -/
def specMemoryListRule (canonical : List String) (submitted : String) : Prop :=
  let submittedTokens := (pySplitComma submitted.data).map (fun w => pyLower (pyStrip w))
  let canonicalTokens := canonical.map (fun w => pyLower (pyStrip w.data))
  (canonicalTokens.length : ℚ) * (7/10) ≤
    ((canonicalTokens.filter (fun c => submittedTokens.contains c)).length : ℚ)

lemma rat_threshold_iff (n m : Nat) :
    ((n : ℚ) * (7/10) ≤ (m : ℚ)) ↔ 7 * n ≤ 10 * m := by
  rw [show (7 * n ≤ 10 * m ↔ ((7 * n : Nat) : ℚ) ≤ ((10 * m : Nat) : ℚ))
        from (Nat.cast_le (α := ℚ)).symm]
  push_cast
  constructor <;> intro h <;> linarith

lemma memoryValidate_list_iff (ws : List String) (u : String) :
    memoryValidate (.listA ws) u = true ↔
      7 * ws.length ≤
        10 * (((pySplitComma u.data).map (fun w => pyLower (pyStrip w))).filter
          (fun w => (ws.map (fun c => pyLower c.data)).contains w)).length := by
  simp only [memoryValidate, decide_eq_true_eq]
  exact rat_threshold_iff _ _

lemma specMemoryListRule_iff (canonical : List String) (submitted : String) :
    specMemoryListRule canonical submitted ↔
      7 * (canonical.map (fun w => pyLower (pyStrip w.data))).length ≤
        10 * ((canonical.map (fun w => pyLower (pyStrip w.data))).filter
          (fun c => ((pySplitComma submitted.data).map
            (fun w => pyLower (pyStrip w))).contains c)).length := by
  unfold specMemoryListRule
  exact rat_threshold_iff _ _

/-- **C8, counterexample.** The code counts *submitted* tokens that occur
in the canonical list — with multiplicity — so submitting the same
remembered word three times against the canonical list
`["apple", "ocean", "pizza"]` yields 3 matches ≥ 2.1 and is accepted,
although only 1 of the 3 canonical tokens (33% < 70%) is present in the
submission, which the claim says should be rejected. -/
theorem spec_C8_counterexample :
    memoryValidate (.listA ["apple", "ocean", "pizza"]) "apple, apple, apple" = true ∧
    ¬ specMemoryListRule ["apple", "ocean", "pizza"] "apple, apple, apple" := by
  constructor
  · rw [memoryValidate_list_iff]
    decide
  · rw [specMemoryListRule_iff]
    decide

lemma sameSet_iff (a b : List (List Char)) :
    sameSet a b = true ↔ ∀ x, x ∈ a ↔ x ∈ b := by
  unfold sameSet
  rw [Bool.and_eq_true, List.all_eq_true, List.all_eq_true]
  simp only [List.elem_eq_mem, List.contains, decide_eq_true_eq]
  constructor
  · rintro ⟨h1, h2⟩ x
    exact ⟨h1 x, h2 x⟩
  · intro h
    exact ⟨fun x hx => (h x).mp hx, fun x hx => (h x).mpr hx⟩

/-- **C8, amended.** Both sides are split on the delimiter with each
*submitted* token trimmed and lowercased (canonical list entries are only
lowercased) and (a) when the canonical answer is a string, the verdict is
token-set equality only when *both* canonical and submitted answers
contain the delimiter — otherwise it is trimmed case-insensitive equality
of the whole strings — and (b) when the canonical answer is a list, the
verdict is true iff the number of submitted tokens occurring in the
canonical list, counted with multiplicity over the submission, is at
least 70% of the canonical list's length. -/
theorem spec_C8_amended :
    (∀ (ws : List String) (u : String),
        memoryValidate (.listA ws) u = true ↔
          7 * ws.length ≤
            10 * (((pySplitComma u.data).map (fun w => pyLower (pyStrip w))).filter
              (fun w => (ws.map (fun c => pyLower c.data)).contains w)).length)
    ∧ (∀ (ca u : String),
        ca.data.contains ',' = true → u.data.contains ',' = true →
        (memoryValidate (.strA ca) u = true ↔
          ∀ t : List Char,
            t ∈ (pySplitComma ca.data).map (fun p => pyLower (pyStrip p)) ↔
            t ∈ (pySplitComma u.data).map (fun p => pyLower (pyStrip p))))
    ∧ (∀ (ca u : String),
        ¬(ca.data.contains ',' = true ∧ u.data.contains ',' = true) →
        (memoryValidate (.strA ca) u = true ↔ pyNormalize u = pyNormalize ca)) := by
  refine ⟨?_, ?_, ?_⟩
  · intro ws u
    exact memoryValidate_list_iff ws u
  · intro ca u hca hu
    simp only [memoryValidate]
    rw [if_pos (show (ca.data.contains ',' && u.data.contains ',') = true by
          rw [Bool.and_eq_true]; exact ⟨hca, hu⟩)]
    exact sameSet_iff _ _
  · intro ca u hne
    simp only [memoryValidate]
    rw [if_neg (show ¬(ca.data.contains ',' && u.data.contains ',') = true by
          rw [Bool.and_eq_true]; exact hne)]
    exact beq_iff_eq

/-- Witness for the amended C8, covering all three branches at concrete
inputs: full recall of a word list, delimiter-joined set equality, and the
plain trimmed/lowercased fallback. -/
theorem spec_C8_amended_witness :
    memoryValidate (.listA ["apple", "ocean"]) "ocean, apple" = true ∧
    ("b".data ∈ (pySplitComma "a,b".data).map (fun p => pyLower (pyStrip p)) ↔
      "b".data ∈ (pySplitComma "b , a".data).map (fun p => pyLower (pyStrip p))) ∧
    memoryValidate (.strA "yes") "  YES " = true := by
  refine ⟨?_, ?_, ?_⟩
  · exact (spec_C8_amended.1 ["apple", "ocean"] "ocean, apple").mpr (by decide)
  · exact (spec_C8_amended.2.1 "a,b" "b , a" (by decide) (by decide)).mp (by decide) "b".data
  · exact (spec_C8_amended.2.2 "yes" "  YES " (by decide)).mpr (by decide)

/-! ## Scenario state machine
Embedding of `ScenarioEngine`
(`src/cogniplay/engines/scenario_engine.py`) and of the completion-path
cleanup its caller performs (`src/cogniplay/main.py`,
`handle_scenario_decision`).  The in-memory dict `active_scenarios` is the
map `ScenarioMap`.  Fields of a scenario irrelevant to the claims
(characters, timestamps, titles) are dropped; the character-memory side
effect is likewise outside the claims.  The two service round trips of
one turn are the explicit arguments `gen` (the structured character
response: free-text reply, narrative, next options) and `evalReply` (the
numeric decision-quality score parsed from the evaluation reply); `.error ()`
is any raised exception, including a reply whose parsing raised. -/

/-- One entry of `decision_history`. -/
structure DecisionRecord where
  decision : String
  quality : ℚ
  impact : String
  deriving Repr

/-- The mutable scenario object kept in `active_scenarios`. -/
structure Scenario where
  difficulty : Nat
  turn_count : Nat
  current_situation : String
  available_actions : List String
  decision_history : List DecisionRecord
  narrative_branches : List String
  is_complete : Bool
  deriving Repr

/-- The structured reply of `generate_character_response`. -/
structure AiResponse where
  response : String
  narrative : String
  options : List String
  deriving Repr

/-- The scenario conclusion built by `get_scenario_conclusion` (the
human-readable `summary` text, which has its own service call and
fallback, is not needed by any claim and is dropped). -/
structure Conclusion where
  total_turns : Nat
  average_score : ℚ
  decision_count : Nat
  performance_grade : String
  deriving Repr

/-- The per-turn result `ScenarioOutcome`. -/
structure ScenarioOutcome where
  user_decision : String
  ai_response : String
  narrative_update : String
  narrative_branch : String
  decision_quality : ℚ
  is_complete : Bool
  next_actions : List String
  turn_count : Nat
  conclusion : Option Conclusion
  deriving Repr

/-- Errors `process_decision` can raise: the `ValueError` for an unknown
scenario id, and a propagated generation-service exception. -/
inductive ScenarioError
  | notFound
  | upstreamFailure
  deriving DecidableEq, Repr

/-- The `active_scenarios` dict. -/
def ScenarioMap := String → Option Scenario

/-- Dict update `self.active_scenarios[id] = scenario`. -/
def ScenarioMap.set (m : ScenarioMap) (scenario_id : String) (sc : Scenario) : ScenarioMap :=
  fun k => if k = scenario_id then some sc else m k

/-- `ScenarioEngine.cleanup_scenario`: delete the entry if present. -/
def cleanupScenario (m : ScenarioMap) (scenario_id : String) : ScenarioMap :=
  fun k => if k = scenario_id then none else m k

/-- `ScenarioEngine._evaluate_decision`: clamp the parsed service score to
`[0,100]`; on any exception substitute the fixed neutral score `70.0`. -/
def evaluateDecision (evalReply : Except Unit ℚ) : ℚ :=
  match evalReply with
  | .ok score => max 0 (min 100 score)
  | .error _ => 70

/-- `ScenarioEngine._get_grade`. -/
def getGrade (score : ℚ) : String :=
  if 90 ≤ score then "A"
  else if 80 ≤ score then "B"
  else if 70 ≤ score then "C"
  else if 60 ≤ score then "D"
  else "F"

/-- The aggregate part of `ScenarioEngine.get_scenario_conclusion`:
average of all decision-quality scores in the history (0 when empty),
mapped to a letter grade. -/
def scenarioConclusion (sc : Scenario) : Conclusion :=
  let decision_scores := sc.decision_history.map (fun d => d.quality)
  let average_score : ℚ :=
    match decision_scores with
    | [] => 0
    | _ => decision_scores.sum / (decision_scores.length : ℚ)
  { total_turns := sc.turn_count
    average_score := average_score
    decision_count := sc.decision_history.length
    performance_grade := getGrade average_score }

/-- `ScenarioEngine.process_decision`.  Looks the scenario up (raising
`notFound` when absent), performs the generation round trip (whose
exception propagates, leaving the map untouched), evaluates decision
quality (with the internal 70.0 fallback), then commits the turn:
increments the turn count, rewrites situation/actions, appends to the
decision history and branch list, computes the completion test
`turn_count >= 5 + difficulty or options == []`, and attaches a
conclusion when concluding. -/
def processDecision (m : ScenarioMap) (scenario_id decision : String)
    (gen : Except Unit AiResponse) (evalReply : Except Unit ℚ) :
    Except ScenarioError (ScenarioMap × ScenarioOutcome) :=
  match m scenario_id with
  | none => .error .notFound
  | some scenario =>
    match gen with
    | .error _ => .error .upstreamFailure
    | .ok ai =>
      let decision_quality := evaluateDecision evalReply
      let new_turn_count := scenario.turn_count + 1
      let branch_id := "branch_" ++ toString new_turn_count
      let scenario' : Scenario :=
        { scenario with
          turn_count := new_turn_count
          current_situation := ai.narrative
          available_actions := ai.options
          decision_history := scenario.decision_history ++
            [⟨decision, decision_quality, ai.narrative⟩]
          narrative_branches := scenario.narrative_branches ++ [branch_id] }
      let should_conclude : Bool :=
        decide (5 + scenario.difficulty ≤ new_turn_count) || decide (ai.options.length = 0)
      let scenario'' : Scenario :=
        if should_conclude then { scenario' with is_complete := true } else scenario'
      let outcome : ScenarioOutcome :=
        { user_decision := decision
          ai_response := ai.response
          narrative_update := ai.narrative
          narrative_branch := branch_id
          decision_quality := decision_quality
          is_complete := should_conclude
          next_actions := ai.options
          turn_count := new_turn_count
          conclusion := if should_conclude then some (scenarioConclusion scenario'') else none }
      .ok (m.set scenario_id scenario'', outcome)

/-- The caller-side turn handling of `main.handle_scenario_decision`: run
`process_decision`, then remove the scenario from the active set when the
outcome reports completion (`cleanup_scenario`). -/
def handleDecision (m : ScenarioMap) (scenario_id decision : String)
    (gen : Except Unit AiResponse) (evalReply : Except Unit ℚ) :
    Except ScenarioError (ScenarioMap × ScenarioOutcome) :=
  match processDecision m scenario_id decision gen evalReply with
  | .error e => .error e
  | .ok (m', outcome) =>
      .ok (if outcome.is_complete then cleanupScenario m' scenario_id else m', outcome)

/-- **C5.** A successful `process_decision` marks the outcome complete
exactly when the incremented turn count reaches `5 + difficulty` or the
returned next-actions list is empty — so an outcome left incomplete
always has turn count `< 5 + difficulty`, i.e. every scenario is marked
complete at or before turn `5 + difficulty`; a completing outcome carries
a conclusion whose letter grade is `getGrade` of the average of all
decision-quality scores in the (now extended) history; and `getGrade`
yields `A` iff the average is ≥ 90, `B` iff in `[80,90)`, `C` iff in
`[70,80)`, `D` iff in `[60,70)`, and `F` iff below 60. -/
theorem spec_C5 :
    (∀ (m : ScenarioMap) (scenario_id d : String) (sc : Scenario) (ai : AiResponse)
        (ev : Except Unit ℚ) (m' : ScenarioMap) (o : ScenarioOutcome),
        m scenario_id = some sc →
        processDecision m scenario_id d (.ok ai) ev = .ok (m', o) →
        ((o.is_complete = true ↔ (5 + sc.difficulty ≤ sc.turn_count + 1 ∨ ai.options = [])) ∧
         (o.is_complete = false → o.turn_count < 5 + sc.difficulty) ∧
         (o.is_complete = true →
           ∃ c : Conclusion, o.conclusion = some c ∧
             c.performance_grade = getGrade c.average_score ∧
             c.decision_count = sc.decision_history.length + 1)))
    ∧ (∀ q : ℚ,
        (getGrade q = "A" ↔ 90 ≤ q) ∧ (getGrade q = "B" ↔ 80 ≤ q ∧ q < 90) ∧
        (getGrade q = "C" ↔ 70 ≤ q ∧ q < 80) ∧ (getGrade q = "D" ↔ 60 ≤ q ∧ q < 70) ∧
        (getGrade q = "F" ↔ q < 60))
    ∧ (∀ sc : Scenario, sc.decision_history ≠ [] →
        (scenarioConclusion sc).average_score * (sc.decision_history.length : ℚ) =
          (sc.decision_history.map (fun dr => dr.quality)).sum ∧
        (scenarioConclusion sc).performance_grade =
          getGrade ((scenarioConclusion sc).average_score)) := by
  refine ⟨?_, ?_, ?_⟩
  · intro m scenario_id d sc ai ev m' o hm hproc
    simp only [processDecision, hm] at hproc
    injection hproc with hpair
    injection hpair with hm2 ho
    subst ho
    refine ⟨?_, ?_, ?_⟩
    · dsimp only
      rw [Bool.or_eq_true, decide_eq_true_eq, decide_eq_true_eq, List.length_eq_zero]
    · dsimp only
      intro hfalse
      rw [Bool.or_eq_false_iff] at hfalse
      have := of_decide_eq_false hfalse.1
      omega
    · dsimp only
      intro htrue
      rw [htrue]
      simp only [if_pos (rfl : true = true)]
      refine ⟨_, rfl, rfl, ?_⟩
      simp [scenarioConclusion]
  · intro q
    unfold getGrade
    split_ifs with h1 h2 h3 h4 <;>
      refine ⟨?_, ?_, ?_, ?_, ?_⟩ <;> simp_all <;>
      first
      | linarith
      | (intro hx; linarith)
  · intro sc hne
    refine ⟨?_, rfl⟩
    rcases hh : sc.decision_history with _ | ⟨dr, rest⟩
    · exact absurd hh hne
    · simp only [scenarioConclusion, hh, List.map_cons]
      simp only [List.length_cons, List.length_map]
      rw [div_mul_cancel₀]
      push_cast
      positivity

/-- Concrete scenario for the C5 witness: difficulty 1, five turns taken. -/
def c5sc : Scenario := ⟨1, 5, "", ["x"], [], [], false⟩

/-- Singleton active-scenario map for the C5 witness. -/
def c5map : ScenarioMap := fun k => if k = "s" then some c5sc else none

/-- Service reply for the C5 witness. -/
def c5ai : AiResponse := ⟨"r", "n", ["a"]⟩

/-- The C5 witness turn. -/
def c5res : Except ScenarioError (ScenarioMap × ScenarioOutcome) :=
  processDecision c5map "s" "d" (.ok c5ai) (.ok 85)

/-- Map component of the C5 witness turn. -/
def c5map2 : ScenarioMap :=
  match c5res with
  | .ok (m, _) => m
  | .error _ => c5map

/-- Outcome component of the C5 witness turn. -/
def c5out : ScenarioOutcome :=
  match c5res with
  | .ok (_, o) => o
  | .error _ => ⟨"", "", "", "", 0, false, [], 0, none⟩

/-- Scenario with one recorded decision, for the C5 average conjunct. -/
def c5one : Scenario := ⟨1, 1, "", [], [⟨"d", 80, ""⟩], [], true⟩

/-- Witness for C5: the sixth turn of a difficulty-1 scenario completes it
and carries a graded conclusion; concrete grade lookups on both ends. -/
theorem spec_C5_witness :
    c5out.is_complete = true ∧
    (∃ c : Conclusion, c5out.conclusion = some c ∧
        c.performance_grade = getGrade c.average_score ∧
        c.decision_count = c5sc.decision_history.length + 1) ∧
    getGrade 95 = "A" ∧ getGrade 59 = "F" ∧
    (scenarioConclusion c5one).average_score * (c5one.decision_history.length : ℚ) =
      (c5one.decision_history.map (fun dr => dr.quality)).sum := by
  have h := spec_C5.1 c5map "s" "d" c5sc c5ai (Except.ok 85) c5map2 c5out rfl rfl
  have hc : c5out.is_complete = true := h.1.mpr (Or.inl (by decide))
  refine ⟨hc, h.2.2 hc, ((spec_C5.2.1 95).1).mpr (by norm_num),
    ((spec_C5.2.1 59).2.2.2.2).mpr (by norm_num),
    (spec_C5.2.2 c5one (List.cons_ne_nil _ _)).1⟩

/-- Fresh scenario for the C6 counterexample: difficulty 2, no turns yet. -/
def c6sc : Scenario := ⟨2, 0, "start", ["a", "b"], [], [], false⟩

/-- Singleton active-scenario map for the C6 counterexample. -/
def c6map : ScenarioMap := fun k => if k = "s" then some c6sc else none

/-- Generation reply for the C6 counterexample. -/
def c6ai : AiResponse := ⟨"reply", "story", ["a"]⟩

/-- **C6, counterexample.** When the decision-quality evaluation call
throws (`evalReply = .error ()`), `process_decision` does *not* leave the
scenario untouched: `_evaluate_decision` catches the exception internally
and substitutes the fixed neutral score 70.0, and the turn commits — the
stored turn count goes from 0 to 1 and the decision history grows by the
record with quality 70 — contradicting the claim that turn count and
decision history remain unchanged. -/
theorem spec_C6_counterexample :
    c6sc.turn_count = 0 ∧ c6sc.decision_history.length = 0 ∧
    (match processDecision c6map "s" "act" (.ok c6ai) (.error ()) with
      | .ok (m', o) =>
          o.decision_quality = 70 ∧ o.turn_count = 1 ∧
          (match m' "s" with
            | some sc => sc.turn_count = 1 ∧ sc.decision_history.length = 1
            | none => False)
      | .error _ => False) := by
  refine ⟨rfl, rfl, ?_⟩
  show (70 : ℚ) = 70 ∧ (1 : Nat) = 1 ∧ ((1 : Nat) = 1 ∧ (1 : Nat) = 1)
  norm_num

/-- **C6, amended.** If the *generation* call throws during
`process_decision`, the call returns an error and no updated map is
produced — the active scenario is untouched, and a successful retry of
the same decision increments the turn count exactly once.  If the
*decision-quality evaluation* call throws, the exception is caught inside
`_evaluate_decision`: the turn still commits exactly once, with the fixed
neutral quality 70.0 recorded. -/
theorem spec_C6_amended :
    ∀ (m : ScenarioMap) (scenario_id d : String) (sc : Scenario),
      m scenario_id = some sc →
      (∀ ev : Except Unit ℚ,
        processDecision m scenario_id d (.error ()) ev = .error .upstreamFailure) ∧
      (∀ (ai : AiResponse) (ev : Except Unit ℚ) (m' : ScenarioMap) (o : ScenarioOutcome),
        processDecision m scenario_id d (.ok ai) ev = .ok (m', o) →
        o.turn_count = sc.turn_count + 1 ∧
        ∃ sc' : Scenario, m' scenario_id = some sc' ∧
          sc'.turn_count = sc.turn_count + 1 ∧
          sc'.decision_history.length = sc.decision_history.length + 1) ∧
      (∀ (ai : AiResponse) (m' : ScenarioMap) (o : ScenarioOutcome),
        processDecision m scenario_id d (.ok ai) (.error ()) = .ok (m', o) →
        o.decision_quality = 70) := by
  intro m scenario_id d sc hm
  refine ⟨?_, ?_, ?_⟩
  · intro ev
    simp only [processDecision, hm]
  · intro ai ev m' o hproc
    simp only [processDecision, hm] at hproc
    injection hproc with hpair
    injection hpair with hm' ho
    subst ho
    subst hm'
    constructor
    · rfl
    · have hset : ∀ X : Scenario, (ScenarioMap.set m scenario_id X) scenario_id = some X := by
        intro X
        unfold ScenarioMap.set
        rw [if_pos rfl]
      refine ⟨_, hset _, ?_, ?_⟩
      · split_ifs <;> rfl
      · split_ifs <;> simp
  · intro ai m' o hproc
    simp only [processDecision, hm] at hproc
    injection hproc with hpair
    injection hpair with hm' ho
    subst ho
    rfl

/-- The C6 retry/eval-failure turn. -/
def c6res2 : Except ScenarioError (ScenarioMap × ScenarioOutcome) :=
  processDecision c6map "s" "act" (.ok c6ai) (.error ())

/-- Map component of the C6 witness turn. -/
def c6map2b : ScenarioMap :=
  match c6res2 with
  | .ok (m, _) => m
  | .error _ => c6map

/-- Outcome component of the C6 witness turn. -/
def c6out2 : ScenarioOutcome :=
  match c6res2 with
  | .ok (_, o) => o
  | .error _ => ⟨"", "", "", "", 0, false, [], 0, none⟩

/-- Witness for the amended C6: a thrown generation call yields an error
without a committed turn; a turn whose evaluation call throws commits
exactly once with quality 70. -/
theorem spec_C6_amended_witness :
    processDecision c6map "s" "act" (.error ()) (.ok 50) = .error .upstreamFailure ∧
    c6out2.turn_count = c6sc.turn_count + 1 ∧
    c6out2.decision_quality = 70 := by
  have h := spec_C6_amended c6map "s" "act" c6sc rfl
  exact ⟨h.1 (.ok 50),
         (h.2.1 c6ai (.error ()) c6map2b c6out2 rfl).1,
         h.2.2 c6ai c6map2b c6out2 rfl⟩

/-- **C7.** `process_decision` fails with the not-found error — touching
no scenario, since no updated map is produced — whenever the id is absent
from the active set; the caller's turn handling removes a scenario from
the active set as soon as its outcome reports completion;
`cleanup_scenario` (cancellation) removes it; and a decision submitted
after a cleanup fails with the not-found error. -/
theorem spec_C7 :
    (∀ (m : ScenarioMap) (scenario_id d : String) (gen : Except Unit AiResponse)
        (ev : Except Unit ℚ),
        m scenario_id = none →
        processDecision m scenario_id d gen ev = .error .notFound)
    ∧ (∀ (m : ScenarioMap) (scenario_id d : String) (gen : Except Unit AiResponse)
        (ev : Except Unit ℚ) (m' : ScenarioMap) (o : ScenarioOutcome),
        handleDecision m scenario_id d gen ev = .ok (m', o) →
        o.is_complete = true → m' scenario_id = none)
    ∧ (∀ (m : ScenarioMap) (scenario_id : String),
        cleanupScenario m scenario_id scenario_id = none)
    ∧ (∀ (m : ScenarioMap) (scenario_id d : String) (gen : Except Unit AiResponse)
        (ev : Except Unit ℚ),
        processDecision (cleanupScenario m scenario_id) scenario_id d gen ev =
          .error .notFound) := by
  have hclean : ∀ (m : ScenarioMap) (scenario_id : String),
      cleanupScenario m scenario_id scenario_id = none := by
    intro m scenario_id
    unfold cleanupScenario
    rw [if_pos rfl]
  refine ⟨?_, ?_, hclean, ?_⟩
  · intro m scenario_id d gen ev hm
    simp only [processDecision, hm]
  · intro m scenario_id d gen ev m' o hh hcomplete
    rcases hp : processDecision m scenario_id d gen ev with e | p
    · simp only [handleDecision, hp] at hh
      exact Except.noConfusion hh
    · rcases p with ⟨m₀, o₀⟩
      simp only [handleDecision, hp] at hh
      injection hh with hpair
      injection hpair with hm' ho
      subst ho
      rw [hcomplete, if_pos rfl] at hm'
      rw [← hm']
      exact hclean m₀ scenario_id
  · intro m scenario_id d gen ev
    simp only [processDecision, hclean m scenario_id]

/-- Empty active-scenario map for the C7 witness. -/
def c7map0 : ScenarioMap := fun _ => none

/-- Scenario one turn away from its completion bound (difficulty 1, five
turns taken), for the C7 witness. -/
def c7sc : Scenario := ⟨1, 5, "", ["x"], [], [], false⟩

/-- Singleton map holding `c7sc`, for the C7 witness. -/
def c7map1 : ScenarioMap := fun k => if k = "t" then some c7sc else none

/-- Generation reply for the C7 witness. -/
def c7ai : AiResponse := ⟨"r", "n", ["a"]⟩

/-- The completing C7 witness turn, through the caller-side handling. -/
def c7res : Except ScenarioError (ScenarioMap × ScenarioOutcome) :=
  handleDecision c7map1 "t" "d" (.ok c7ai) (.ok 90)

/-- Map left after the C7 witness turn. -/
def c7mapAfter : ScenarioMap :=
  match c7res with
  | .ok (m, _) => m
  | .error _ => c7map1

/-- Outcome of the C7 witness turn. -/
def c7out : ScenarioOutcome :=
  match c7res with
  | .ok (_, o) => o
  | .error _ => ⟨"", "", "", "", 0, false, [], 0, none⟩

/-- Witness for C7: unknown id fails with not-found, a completing turn
removes the scenario, cancellation removes it too. -/
theorem spec_C7_witness :
    processDecision c7map0 "t" "d" (.ok c7ai) (.ok 90) = .error .notFound ∧
    c7mapAfter "t" = none ∧
    cleanupScenario c7map1 "t" "t" = none := by
  have hcomplete : c7out.is_complete = true := rfl
  exact ⟨spec_C7.1 c7map0 "t" "d" (.ok c7ai) (.ok 90) rfl,
         spec_C7.2.1 c7map1 "t" "d" (.ok c7ai) (.ok 90) c7mapAfter c7out rfl hcomplete,
         spec_C7.2.2.1 c7map1 "t"⟩

/-! ## Session aggregation
Embedding of `TrainingManager._calculate_session_performance`
(`src/cogniplay/core/training_manager.py`, lines 100-142).  The per-item
result rows are reduced to their score lists (`r['score']` /
`r['performance_score']`); the completion-time total is dropped (no claim
mentions it).  All averages start at `0.0` and are only overwritten when
the corresponding list is non-empty, exactly as in the source. -/

/-- The performance dict built by `_calculate_session_performance`. -/
structure SessionPerformance where
  total_exercises : Nat
  total_scenarios : Nat
  avg_exercise_score : ℚ
  avg_scenario_score : ℚ
  overall_avg_score : ℚ
  deriving Repr

/-- `TrainingManager._calculate_session_performance` on the score lists. -/
def calculateSessionPerformance (exercise_scores scenario_scores : List ℚ) :
    SessionPerformance :=
  let total_exercises := exercise_scores.length
  let total_scenarios := scenario_scores.length
  let avg_exercise_score : ℚ :=
    if exercise_scores ≠ [] then exercise_scores.sum / (total_exercises : ℚ) else 0
  let avg_scenario_score : ℚ :=
    if scenario_scores ≠ [] then scenario_scores.sum / (total_scenarios : ℚ) else 0
  let total_items := total_exercises + total_scenarios
  let overall_avg_score : ℚ :=
    if 0 < total_items then
      (avg_exercise_score * (total_exercises : ℚ) + avg_scenario_score * (total_scenarios : ℚ)) /
        (total_items : ℚ)
    else 0
  ⟨total_exercises, total_scenarios, avg_exercise_score, avg_scenario_score, overall_avg_score⟩

lemma avgE_mul (ex sc : List ℚ) :
    (calculateSessionPerformance ex sc).avg_exercise_score * (ex.length : ℚ) = ex.sum := by
  simp only [calculateSessionPerformance]
  by_cases hex : ex = []
  · subst hex
    simp
  · rw [if_pos hex, div_mul_cancel₀]
    rw [Nat.cast_ne_zero]
    exact fun h0 => hex (List.length_eq_zero.mp h0)

lemma avgS_mul (ex sc : List ℚ) :
    (calculateSessionPerformance ex sc).avg_scenario_score * (sc.length : ℚ) = sc.sum := by
  simp only [calculateSessionPerformance]
  by_cases hsc : sc = []
  · subst hsc
    simp
  · rw [if_pos hsc, div_mul_cancel₀]
    rw [Nat.cast_ne_zero]
    exact fun h0 => hsc (List.length_eq_zero.mp h0)

/-- **C10.** With at least one item, the overall session score is the
item-count-weighted average of the per-exercise and per-scenario averages
— equivalently, overall times the item count is the grand total of all
scores; with zero items of both kinds the overall score is 0 (the
divide-by-zero guard); and the spec's concrete example — 4 exercises
averaging 80, 2 scenarios averaging 50 — yields exactly 70. -/
theorem spec_C10 :
    (∀ ex sc : List ℚ, 0 < ex.length + sc.length →
        (calculateSessionPerformance ex sc).overall_avg_score =
          ((calculateSessionPerformance ex sc).avg_exercise_score * (ex.length : ℚ) +
            (calculateSessionPerformance ex sc).avg_scenario_score * (sc.length : ℚ)) /
            ((ex.length + sc.length : ℕ) : ℚ) ∧
        (calculateSessionPerformance ex sc).overall_avg_score *
            ((ex.length + sc.length : ℕ) : ℚ) = ex.sum + sc.sum)
    ∧ (calculateSessionPerformance [] []).overall_avg_score = 0
    ∧ (calculateSessionPerformance [80, 80, 80, 80] [50, 50]).overall_avg_score = 70 := by
  refine ⟨?_, ?_, ?_⟩
  · intro ex sc h
    have he := avgE_mul ex sc
    have hs := avgS_mul ex sc
    constructor
    · simp only [calculateSessionPerformance] at *
      rw [if_pos h]
    · simp only [calculateSessionPerformance] at *
      rw [if_pos h, div_mul_cancel₀, he, hs]
      rw [Nat.cast_ne_zero]
      omega
  · simp [calculateSessionPerformance]
  · simp [calculateSessionPerformance]
    norm_num

/-- Witness for C10 at the spec's own example: 4 exercises averaging 80
and 2 scenarios averaging 50 give a grand total of `420 = overall * 6`. -/
theorem spec_C10_witness :
    (calculateSessionPerformance [80, 80, 80, 80] [50, 50]).overall_avg_score *
        ((([80, 80, 80, 80] : List ℚ).length + ([50, 50] : List ℚ).length : ℕ) : ℚ) =
      ([80, 80, 80, 80] : List ℚ).sum + ([50, 50] : List ℚ).sum :=
  (spec_C10.1 [80, 80, 80, 80] [50, 50] (by decide)).2
